import Mathlib

/-!
Verification development for the nights-watch chess-evaluation service
(`src/src/index.ts`, with the pooled variant in `src/unnamed/part_000`).

The embedding models, from the source:
  * the line-oriented protocol parsing done by `outputHandler`
    (JS `String.includes`, the regexes `/bestmove (\S+)/` and
    `/score (cp|mate) (-?\d+)/`, `parseInt`, division by 100);
  * the per-request exchange driven over a worker's output stream,
    including the 30-second `setTimeout` (which the source never clears)
    and `cleanup` (remove listener, then `StockfishPool.release`);
  * the batch loop of `app.post('/eval')` (slices of `batchSize = 4`,
    `Promise.all` per slice, results appended in order);
  * the input validation `!Array.isArray(moves) || moves.length === 0`;
  * `StockfishPool.acquire`'s synchronous-create path (spawn, `uciok`
    readiness flag, `exit`/`error` handlers decrementing
    `currentPoolSize`, and the 10 ms `checkReady` poll that inspects
    only `ready`);
  * the listening-port computation `parseInt(process.env.PORT!) | 3000`.

JS numbers that arise as `cp / 100` are modelled as rationals; the
JS bitwise OR is modelled as 32-bit two's complement over `Nat`/`Int`.
-/

namespace NightsWatch

/-- An inbound request item: `interface Move { position, move }` from the source. -/
structure Move where
  position : String
  move : String
  deriving DecidableEq, Repr

/-- Runtime value stored in the `evaluation` field of a result.
In the source this is a JS value: a number (`parseInt(value, 10) / 100`),
a string (`` `mate in ${value}` `` or the timeout placeholder), or `null`
(the initial value when no score line preceded the best-move line). -/
inductive EvalVal where
  | num (q : ℚ)
  | str (s : String)
  | null
  deriving DecidableEq, Repr

/-- A resolved result: `{ ...move, evaluation, bestMove }` from the source. -/
structure EvaluatedMove where
  position : String
  move : String
  evaluation : EvalVal
  bestMove : String
  deriving DecidableEq, Repr

/-! ### String scanning: JS `String.includes` and the two regexes -/

/-- List-level prefix test (used to model regex matching at a position). -/
def isPrefixL : List Char → List Char → Bool
  | [], _ => true
  | _ :: _, [] => false
  | a :: as, b :: bs => (a == b) && isPrefixL as bs

/-- Does `pat` occur as a contiguous sublist? Models JS `String.includes`. -/
def containsL (pat : List Char) : List Char → Bool
  | [] => isPrefixL pat []
  | b :: bs => isPrefixL pat (b :: bs) || containsL pat bs

/-- JS `s.includes(pat)` on Lean strings. -/
def strContains (s pat : String) : Bool := containsL pat.data s.data

/-- The whitespace class used by JS `\s` (restricted to the ASCII
whitespace that can occur in engine output). -/
def jsWhitespace (c : Char) : Bool :=
  c == ' ' || c == '\t' || c == '\n' || c == '\r'

/-- JS `String.prototype.trim` (both ends, same whitespace class). -/
def jsTrim (s : String) : String :=
  String.mk (((s.data.dropWhile jsWhitespace).reverse.dropWhile jsWhitespace).reverse)

/-- Leftmost-match driver: try the position matcher at every suffix,
exactly as a JS regex engine scans for the first matching start index. -/
def firstMatch {α : Type} (f : List Char → Option α) : List Char → Option α
  | [] => f []
  | b :: bs =>
    match f (b :: bs) with
    | some r => some r
    | none => firstMatch f bs

/-- Match `/bestmove (\S+)/` anchored at the head of `s`:
literal `bestmove `, then a maximal nonempty run of non-whitespace. -/
def matchBestmoveAt (s : List Char) : Option (List Char) :=
  if isPrefixL "bestmove ".data s then
    let tok := (s.drop 9).takeWhile (fun c => !jsWhitespace c)
    if tok.isEmpty then none else some tok
  else none

/-- JS `line.match(/bestmove (\S+)/)`, returning the first capture. -/
def bestmoveMatch (s : String) : Option String :=
  (firstMatch matchBestmoveAt s.data).map fun l => String.mk l

/-- Match `-?\d+` anchored at the head of `s` (greedy digits). -/
def matchNum (s : List Char) : Option (List Char) :=
  match s with
  | '-' :: rest =>
    let ds := rest.takeWhile Char.isDigit
    if ds.isEmpty then none else some ('-' :: ds)
  | t =>
    let ds := t.takeWhile Char.isDigit
    if ds.isEmpty then none else some ds

/-- Match `/score (cp|mate) (-?\d+)/` anchored at the head of `s`;
`true` stands for the `cp` alternative, paired with the numeric capture. -/
def matchScoreAt (s : List Char) : Option (Bool × List Char) :=
  if isPrefixL "score cp ".data s then (matchNum (s.drop 9)).map fun d => (true, d)
  else if isPrefixL "score mate ".data s then (matchNum (s.drop 11)).map fun d => (false, d)
  else none

/-- JS `lastEval.match(/score (cp|mate) (-?\d+)/)`: first match, with the
score kind (`cp` ↦ `true`) and the raw numeric capture string. -/
def scoreMatch (s : String) : Option (Bool × String) :=
  (firstMatch matchScoreAt s.data).map fun p => (p.1, String.mk p.2)

/-- Value of a digit run (the captures are guaranteed `-?\d+`). -/
def digitsToNat (l : List Char) : Nat :=
  l.foldl (fun n c => 10 * n + (c.toNat - 48)) 0

/-- JS `parseInt(value, 10)` on a string already known to match `-?\d+`. -/
def parseCaptureL : List Char → Int
  | '-' :: ds => -(digitsToNat ds : Int)
  | ds => (digitsToNat ds : Int)

/-- String-level wrapper for `parseCaptureL`. -/
def parseCapture (s : String) : Int := parseCaptureL s.data

/-! ### The per-evaluation output handler (`outputHandler` in the source) -/

/-- Mutable locals of one exchange: `let lastEval = ''; let bestMove = '';`. -/
structure ExchState where
  lastEval : String
  bestMove : String
  deriving DecidableEq, Repr

/-- Initial exchange state. -/
def initExch : ExchState := ⟨"", ""⟩

/-- The source's score-to-evaluation branch:
`evaluation = type === 'cp' ? parseInt(value, 10) / 100 : `mate in ${value}``,
with `null` when the regex did not match. -/
def evalOfScore (o : Option (Bool × String)) : EvalVal :=
  match o with
  | some (true, v) => .num ((parseCapture v : ℚ) / 100)
  | some (false, v) => .str ("mate in " ++ v)
  | none => .null

/-- One invocation of `outputHandler` on a data chunk: update `lastEval`
when the chunk contains `score`; when it contains `bestmove`, extract the
move token, parse the latched score line, and resolve. -/
def procChunk (m : Move) (st : ExchState) (chunk : String) :
    ExchState × Option EvaluatedMove :=
  let st1 := if strContains chunk "score" then { st with lastEval := jsTrim chunk } else st
  if strContains chunk "bestmove" then
    let st2 :=
      match bestmoveMatch chunk with
      | some mv => { st1 with bestMove := mv }
      | none => st1
    (st2, some { position := m.position, move := m.move,
                 evaluation := evalOfScore (scoreMatch st2.lastEval),
                 bestMove := st2.bestMove })
  else (st1, none)

/-- Run the handler over a stream of chunks until the first resolution
(a JS promise latches its first `resolve`). -/
def runChunks (m : Move) : ExchState → List String → Option EvaluatedMove
  | _, [] => none
  | st, c :: cs =>
    match procChunk m st c with
    | (_, some r) => some r
    | (st1, none) => runChunks m st1 cs

/-! ### The `/eval` endpoint: validation and batch processing -/

/-- The JSON `moves` field as seen by the endpoint: absent, present but
not an array, or an array of request items. -/
inductive ReqMoves where
  | missing
  | notArray
  | arr (ms : List Move)
  deriving DecidableEq

/-- The batch loop of `app.post('/eval')`: slices of `batchSize = 4`,
each slice evaluated (concurrently, order kept by `Promise.all`) and
appended to `evaluatedMoves`. `f` abstracts one request's resolved
outcome (the per-request exchange always resolves: best-move or the
30-second timer). -/
def chunked (f : Move → EvaluatedMove) : List Move → List EvaluatedMove
  | [] => []
  | m :: rest => ((m :: rest).take 4).map f ++ chunked f ((m :: rest).drop 4)
  termination_by ms => ms.length
  decreasing_by simp [List.length_drop]; omega

/-- The `/eval` endpoint body: the guard
`!Array.isArray(moves) || moves.length === 0` returns the 400 text before
any pool interaction; otherwise the batch loop runs. The second component
counts `stockfishPool.acquire()` calls performed (one per request on the
processing path, none on the rejection path). -/
def evalEndpoint (f : Move → EvaluatedMove) :
    ReqMoves → Except String (List EvaluatedMove) × Nat
  | .arr ms =>
    if ms.length = 0 then (.error "Invalid or empty moves array", 0)
    else (.ok (chunked f ms), ms.length)
  | _ => (.error "Invalid or empty moves array", 0)

/-! ### Listening port: `parseInt(process.env.PORT!) | 3000` -/

/-- JS `parseInt(s)` for decimal strings: skip leading whitespace, take an
optional sign and a maximal digit run; `none` models `NaN`. -/
def jsParseInt (s : String) : Option Int :=
  match s.data.dropWhile jsWhitespace with
  | '-' :: rest => (matchNum ('-' :: rest)).map parseCaptureL
  | '+' :: rest => (matchNum rest).map parseCaptureL
  | t => (matchNum t).map parseCaptureL

/-- `parseInt(process.env.PORT!)`: an unset variable is `undefined`, and
`parseInt(undefined)` is `NaN` (modelled `none`). -/
def envParseInt : Option String → Option Int
  | none => none
  | some s => jsParseInt s

/-- ECMAScript `ToInt32`: `NaN` to `0`, otherwise reduce mod `2^32` and
reinterpret as signed. -/
def jsToInt32 (o : Option Int) : Int :=
  match o with
  | none => 0
  | some n =>
    let m := n % 4294967296
    if m < 2147483648 then m else m - 4294967296

/-- 32-bit bitwise OR over the low `fuel` bits. -/
def natOrAux : Nat → Nat → Nat → Nat
  | 0, _, _ => 0
  | fuel + 1, a, b =>
    (if a % 2 == 1 || b % 2 == 1 then 1 else 0) + 2 * natOrAux fuel (a / 2) (b / 2)

/-- JS `x | y` with a possibly-`NaN` left operand and a literal right
operand: both sides through `ToInt32`, OR the 32 bit patterns, read the
result back as signed. -/
def jsBitOr (a : Option Int) (b : Int) : Int :=
  let pa := ((jsToInt32 a) % 4294967296).toNat
  let pb := ((jsToInt32 (some b)) % 4294967296).toNat
  let r := natOrAux 32 pa pb
  if r < 2147483648 then (r : Int) else (r : Int) - 4294967296

/-- `const port = parseInt(process.env.PORT!) | 3000` as a function of the
`PORT` environment variable. -/
def serverPort (env : Option String) : Int := jsBitOr (envParseInt env) 3000

/-! ### Event-loop trace of one pooled worker

State of a single ready pool worker plus everything the endpoint's
per-request code hangs off it. Evaluations are numbered; `handlers` is
the worker's `stdout` listener list (`engine.stdout.on('data', ...)` in
attach order), `timers` the pending 30-second `setTimeout`s (the source
never calls `clearTimeout`), `releases` the log of
`stockfishPool.release` calls, `resolved` the first resolution of each
evaluation's promise. -/
structure WSt where
  alive : Bool
  ready : Bool
  busy : Bool
  handlers : List Nat
  exch : List (Nat × Move × ExchState)
  timers : List (Nat × Nat × Move)
  releases : List Nat
  resolved : List (Nat × EvaluatedMove)
  deriving DecidableEq, Repr

/-- A worker fresh from the pool: spawned, `uciok` seen, not busy. -/
def initWorker : WSt :=
  { alive := true, ready := true, busy := false,
    handlers := [], exch := [], timers := [], releases := [], resolved := [] }

/-- The timeout resolution from the source:
`resolve({ ...move, evaluation: "fucked", bestMove: '' })`
(the literal placeholder string the code uses for the timeout status). -/
def timeoutRes (m : Move) : EvaluatedMove :=
  { position := m.position, move := m.move,
    evaluation := EvalVal.str "fucked", bestMove := "" }

/-- `cleanup` from the source: remove this evaluation's stdout listener,
then `stockfishPool.release(stockfish)` (which sets `busy = false`).
Every call is logged in `releases`. -/
def cleanupEval (eid : Nat) (st : WSt) : WSt :=
  { st with handlers := st.handlers.erase eid,
            busy := false,
            releases := st.releases ++ [eid] }

/-- A promise's `resolve`: only the first resolution is kept. -/
def resolveEval (eid : Nat) (r : EvaluatedMove) (st : WSt) : WSt :=
  if (st.resolved.lookup eid).isSome then st
  else { st with resolved := st.resolved ++ [(eid, r)] }

/-- Fire every pending timer whose scheduled time has been reached. The
timer callback is the source's `setTimeout` body: `cleanup(); resolve(
{ ...move, evaluation: "fucked", bestMove: '' })`. -/
def fireDue (t : Nat) (st : WSt) : WSt :=
  let due := st.timers.filter fun x => decide (x.1 ≤ t)
  let st1 := { st with timers := st.timers.filter fun x => !decide (x.1 ≤ t) }
  due.foldl (fun s x => resolveEval x.2.1 (timeoutRes x.2.2) (cleanupEval x.2.1 s)) st1

/-- Deliver a data chunk to one attached listener: run that evaluation's
`outputHandler`; on a best-move resolution, `cleanup()` then `resolve`. -/
def deliverTo (chunk : String) (st : WSt) (eid : Nat) : WSt :=
  match st.exch.lookup eid with
  | none => st
  | some (m, es) =>
    let pr := procChunk m es chunk
    let st1 := { st with exch := st.exch.map fun x => if x.1 = eid then (eid, m, pr.1) else x }
    match pr.2 with
    | some r => resolveEval eid r (cleanupEval eid st1)
    | none => st1

/-- External occurrences on this worker: an evaluation starting on it
(the request has acquired it on the fast path and attaches), or a chunk
arriving on the engine's stdout. -/
inductive WEv where
  | start (eid : Nat) (m : Move)
  | data (chunk : String)
  deriving DecidableEq

/-- Apply one occurrence at time `t`. A start mirrors the acquisition
guard (`alive && ready && !busy`, then `busy = true`), attaches the
evaluation's listener, and schedules its 30-second timer. A data event is
emitted to the snapshot of the listener list, as Node's emitter does. -/
def applyEvent (t : Nat) (st : WSt) : WEv → WSt
  | .start eid m =>
    if st.alive && st.ready && !st.busy then
      { st with busy := true,
                handlers := st.handlers ++ [eid],
                exch := st.exch ++ [(eid, m, initExch)],
                timers := st.timers ++ [(t + 30000, eid, m)] }
    else st
  | .data chunk => st.handlers.foldl (deliverTo chunk) st

/-- Process a time-ordered list of occurrences, firing due timers before
each one (the event loop runs a timer at its scheduled time). -/
def runEvents : WSt → List (Nat × WEv) → WSt
  | st, [] => st
  | st, (t, e) :: rest => runEvents (applyEvent t (fireDue t st) e) rest

/-- Run a schedule from a fresh worker, then fire every timer due by
`horizon`. -/
def runWorker (evs : List (Nat × WEv)) (horizon : Nat) : WSt :=
  fireDue horizon (runEvents initWorker evs)

/-! ### `StockfishPool.acquire`: the synchronous-create path

`acquire()` with no available worker and `currentPoolSize < maxPoolSize`
calls `createStockfish()` (spawn; `currentPoolSize++`; `uciok` listener
setting `ready`; `exit`/`error` handlers setting `alive = false` and
decrementing `currentPoolSize`), then polls `newInstance.ready` every
10 ms; when the poll sees `ready` it resolves, sets `busy = true` and
returns the instance. The poll inspects only `ready`. -/
structure CInst where
  alive : Bool
  ready : Bool
  busy : Bool
  deriving DecidableEq, Repr

/-- Create-path state: the new instance's flags, the pool's
`currentPoolSize`, and what `acquire()` has returned (if anything). -/
structure CSt where
  inst : CInst
  cur : Int
  returned : Option CInst
  deriving DecidableEq, Repr

/-- Asynchronous occurrences during the create path: the engine printing
`uciok`, the process `exit` event, the spawn `error` event, and one tick
of the 10 ms `checkReady` poll. -/
inductive CEv where
  | uciok
  | exit
  | err
  | poll
  deriving DecidableEq

/-- One step of the create path, each case read off the source handlers. -/
def cStep (st : CSt) : CEv → CSt
  | .uciok => { st with inst := { st.inst with ready := true } }
  | .exit => { st with inst := { st.inst with alive := false }, cur := st.cur - 1 }
  | .err => { st with inst := { st.inst with alive := false }, cur := st.cur - 1 }
  | .poll =>
    if st.inst.ready && st.returned.isNone then
      let i := { st.inst with busy := true }
      { st with inst := i, returned := some i }
    else st

/-- State right after `createStockfish()` returned inside `acquire()` on
an empty pool: `alive`, not `ready`, counter incremented to 1, the
readiness promise unresolved. -/
def cInit : CSt :=
  { inst := { alive := true, ready := false, busy := false }, cur := 1, returned := none }

/-- Run a sequence of create-path occurrences. -/
def cRun (evs : List CEv) : CSt := evs.foldl cStep cInit

/-! ### Concrete schedules used as failing inputs -/

/-- Request 1's position. -/
def mv1 : Move := ⟨"fen-one", "g1f3"⟩

/-- Request 2's position. -/
def mv2 : Move := ⟨"fen-two", "b8c6"⟩

/-- Request 3's position. -/
def mv3 : Move := ⟨"fen-three", "d7d6"⟩

/-- Cross-talk schedule: request 1 answered at 1000 and resolved; request
2 starts at 2000; request 1's never-cleared timer fires at 30000 and
releases the worker under request 2; request 3 then starts at 31000. -/
def sched2a : List (Nat × WEv) :=
  [(0, .start 1 mv1),
   (1000, .data "bestmove e2e4 ponder e7e5"),
   (2000, .start 2 mv2),
   (31000, .start 3 mv3)]

/-- The same schedule continued: one engine reply arrives while both
request 2's and request 3's listeners are attached. -/
def sched2b : List (Nat × WEv) :=
  sched2a ++
  [(31500, .data "info depth 12 score cp 31 nodes 5"),
   (31600, .data "bestmove d2d4 ponder d7d5")]

/-- Double-release schedule: a single request whose engine replies with a
best-move line at 1000, well before the 30-second timer. -/
def sched3 : List (Nat × WEv) :=
  [(0, .start 1 mv1), (1000, .data "bestmove e2e4 ponder e7e5")]

/-- The `lastEval` latch of `outputHandler` restricted to non-best-move
chunks: update `lastEval` when the chunk contains `score`. -/
def scanScore (st : ExchState) (c : String) : ExchState :=
  if strContains c "score" then { st with lastEval := jsTrim c } else st

/-- Concrete request used by several witnesses. -/
def mvW : Move := ⟨"rnbqkbnr/pppppppp/8/8/8/8/PPPPPPPP/RNBQKBNR w KQkq - 0 1", "e2e4"⟩

/-- Concrete request batch of five items (crosses the group size of 4). -/
def msW : List Move :=
  [⟨"p1", "a"⟩, ⟨"p2", "b"⟩, ⟨"p3", "c"⟩, ⟨"p4", "d"⟩, ⟨"p5", "e"⟩]

/-- Concrete per-request outcome used by witnesses. -/
def fW : Move → EvaluatedMove :=
  fun m => ⟨m.position, m.move, EvalVal.null, m.move⟩

/-- Trace shape of a single evaluation before its timer fires: listener 1
attached, worker busy, the 30-second timer pending, `lastEval` latched to
`e`. -/
def preMid (m : Move) (e : String) : WSt :=
  { alive := true, ready := true, busy := true,
    handlers := [1], exch := [(1, m, ⟨e, ""⟩)],
    timers := [(30000, 1, m)], releases := [], resolved := [] }

/-- Trace shape of that evaluation after its timer fired: listener
removed, worker released, timeout result resolved. -/
def postMid (m : Move) (e : String) : WSt :=
  { alive := true, ready := true, busy := false,
    handlers := [], exch := [(1, m, ⟨e, ""⟩)],
    timers := [], releases := [1], resolved := [(1, timeoutRes m)] }

/-! ## Theorems -/

/-- A chunk without the `bestmove` marker only latches `lastEval`. -/
lemma procChunk_no_best (m : Move) (st : ExchState) (c : String)
    (hc : strContains c "bestmove" = false) :
    procChunk m st c = (scanScore st c, none) := by
  simp [procChunk, scanScore, hc]

/-- Streaming through best-move-free chunks just folds the score latch. -/
lemma runChunks_append_skip (m : Move) (pre : List String)
    (h : ∀ c ∈ pre, strContains c "bestmove" = false) :
    ∀ (st : ExchState) (rest : List String),
      runChunks m st (pre ++ rest) = runChunks m (pre.foldl scanScore st) rest := by
  induction pre with
  | nil => intro st rest; simp
  | cons c cs ih =>
    intro st rest
    have hc : strContains c "bestmove" = false := h c (by simp)
    have hcs : ∀ x ∈ cs, strContains x "bestmove" = false := fun x hx => h x (by simp [hx])
    simp only [List.cons_append, runChunks, procChunk_no_best m st c hc, List.foldl_cons]
    exact ih hcs (scanScore st c) rest

/-- The score latch ignores chunks without the `score` marker. -/
lemma foldl_scanScore_no_score (pre : List String)
    (h : ∀ c ∈ pre, strContains c "score" = false) :
    ∀ st : ExchState, pre.foldl scanScore st = st := by
  induction pre with
  | nil => intro st; rfl
  | cons c cs ih =>
    intro st
    have hc : strContains c "score" = false := h c (by simp)
    simp [List.foldl_cons, scanScore, hc, ih (fun x hx => h x (by simp [hx]))]

/-- The score latch never touches the `bestMove` local. -/
lemma foldl_scanScore_bestMove (pre : List String) :
    ∀ st : ExchState, (pre.foldl scanScore st).bestMove = st.bestMove := by
  induction pre with
  | nil => intro st; rfl
  | cons c cs ih =>
    intro st
    rw [List.foldl_cons, ih]
    unfold scanScore
    split <;> rfl

/-- The score latch never touches the request either: only `lastEval`
can change. -/
lemma foldl_scanScore_shape (pre : List String) :
    ∀ st : ExchState, pre.foldl scanScore st = ⟨(pre.foldl scanScore st).lastEval, st.bestMove⟩ := by
  intro st
  have h := foldl_scanScore_bestMove pre st
  cases hfold : pre.foldl scanScore st with
  | mk l b => simp_all

/-- The empty `lastEval` matches no score pattern. -/
lemma scoreMatch_empty : scoreMatch "" = none := by decide

/-- Claim C5: when the output stream delivers some non-best-move chunks,
then a chunk carrying a `score` marker, then a best-move chunk, the
resolved result carries the extracted move token and, when the latched
score line's first score match is `cp k`, the numeric evaluation
`k / 100`; when it is `mate N`, the string `"mate in N"`. -/
theorem c5_score_parsing (pre : List String) (sc bm mvTok : String) (m : Move)
    (hpre : ∀ c ∈ pre, strContains c "bestmove" = false)
    (hsc1 : strContains sc "score" = true)
    (hsc2 : strContains sc "bestmove" = false)
    (hbm1 : strContains bm "bestmove" = true)
    (hbm2 : strContains bm "score" = false)
    (hmv : bestmoveMatch bm = some mvTok) :
    (∀ (ds : String) (k : Int), scoreMatch (jsTrim sc) = some (true, ds) → parseCapture ds = k →
        runChunks m initExch (pre ++ [sc, bm]) =
          some { position := m.position, move := m.move,
                 evaluation := EvalVal.num ((k : ℚ) / 100), bestMove := mvTok }) ∧
    (∀ ds : String, scoreMatch (jsTrim sc) = some (false, ds) →
        runChunks m initExch (pre ++ [sc, bm]) =
          some { position := m.position, move := m.move,
                 evaluation := EvalVal.str ("mate in " ++ ds), bestMove := mvTok }) := by
  have key : runChunks m initExch (pre ++ [sc, bm]) =
      some { position := m.position, move := m.move,
             evaluation := evalOfScore (scoreMatch (jsTrim sc)), bestMove := mvTok } := by
    rw [runChunks_append_skip m pre hpre initExch [sc, bm]]
    rw [foldl_scanScore_shape pre initExch]
    simp only [runChunks, procChunk, initExch, hsc1, hsc2, hbm1, hbm2, hmv, if_true, if_false,
      Bool.false_eq_true, ite_false, ite_true]
  constructor
  · intro ds k hds hk
    rw [key, hds]
    simp [evalOfScore, hk]
  · intro ds hds
    rw [key, hds]
    simp [evalOfScore]

/-- Witness for C5 at the spec's concrete streams. -/
theorem c5_score_parsing_witness :
    runChunks mvW initExch
        ["info depth 15 seldepth 17 score cp 37 nodes 12345", "bestmove e2e4 ponder a7a6"] =
      some { position := mvW.position, move := mvW.move,
             evaluation := EvalVal.num (((37 : Int) : ℚ) / 100), bestMove := "e2e4" } ∧
    runChunks mvW initExch
        ["info depth 15 score mate 3 pv d1h5", "bestmove d1h5 ponder g6g5"] =
      some { position := mvW.position, move := mvW.move,
             evaluation := EvalVal.str "mate in 3", bestMove := "d1h5" } := by
  constructor
  · exact (c5_score_parsing [] "info depth 15 seldepth 17 score cp 37 nodes 12345"
      "bestmove e2e4 ponder a7a6" "e2e4" mvW (by simp) (by decide) (by decide) (by decide)
      (by decide) (by decide)).1 "37" 37 (by decide) (by decide)
  · exact (c5_score_parsing [] "info depth 15 score mate 3 pv d1h5"
      "bestmove d1h5 ponder g6g5" "d1h5" mvW (by simp) (by decide) (by decide) (by decide)
      (by decide) (by decide)).2 "3" (by decide)

/-- Claim C9: a best-move chunk arriving with no preceding score chunk
resolves successfully with the extracted move and the distinguished
unavailable evaluation (`null` in this variant, `'N/A'` in the pooled
variant). -/
theorem c9_missing_score (pre : List String) (bm mvTok : String) (m : Move)
    (hpre : ∀ c ∈ pre, strContains c "bestmove" = false ∧ strContains c "score" = false)
    (hbm1 : strContains bm "bestmove" = true)
    (hbm2 : strContains bm "score" = false)
    (hmv : bestmoveMatch bm = some mvTok) :
    runChunks m initExch (pre ++ [bm]) =
      some { position := m.position, move := m.move,
             evaluation := EvalVal.null, bestMove := mvTok } := by
  rw [runChunks_append_skip m pre (fun c hc => (hpre c hc).1) initExch [bm],
      foldl_scanScore_no_score pre (fun c hc => (hpre c hc).2) initExch]
  simp only [runChunks, procChunk, hbm1, hbm2, hmv, if_true, if_false,
    Bool.false_eq_true, ite_false, ite_true, initExch, scoreMatch_empty, evalOfScore]

/-- Witness for C9: an info chunk without a score, then a bare best-move
chunk. -/
theorem c9_missing_score_witness :
    runChunks mvW initExch ["info depth 1 currmove e2e4", "bestmove e2e4"] =
      some { position := mvW.position, move := mvW.move,
             evaluation := EvalVal.null, bestMove := "e2e4" } :=
  c9_missing_score ["info depth 1 currmove e2e4"] "bestmove e2e4" "e2e4" mvW
    (by decide) (by decide) (by decide) (by decide)

/-- The batch loop is the identity mapping over the request list. -/
lemma chunked_eq_map (f : Move → EvaluatedMove) :
    ∀ (n : Nat) (ms : List Move), ms.length ≤ n → chunked f ms = ms.map f := by
  intro n
  induction n with
  | zero =>
    intro ms h
    have hms : ms = [] := List.length_eq_zero.mp (Nat.le_zero.mp h)
    subst hms
    simp [chunked]
  | succ n ih =>
    intro ms h
    cases ms with
    | nil => simp [chunked]
    | cons m rest =>
      rw [chunked]
      have hlen : ((m :: rest).drop 4).length ≤ n := by
        simp only [List.length_drop, List.length_cons] at h ⊢
        omega
      rw [ih _ hlen, ← List.map_append, List.take_append_drop]

/-- Claim C1: every valid (non-empty) batch yields one result per
request, in input order, across the fixed group size of 4. -/
theorem c1_batch_order (f : Move → EvaluatedMove) (ms : List Move) (hne : ms ≠ []) :
    ∃ rs, (evalEndpoint f (ReqMoves.arr ms)).1 = Except.ok rs ∧
      rs.length = ms.length ∧
      ∀ (i : Nat) (h1 : i < rs.length) (h2 : i < ms.length), rs[i] = f ms[i] := by
  have hlen : ¬ ms.length = 0 := by simpa [List.length_eq_zero] using hne
  refine ⟨ms.map f, ?_, by simp, ?_⟩
  · simp [evalEndpoint, hlen, chunked_eq_map f ms.length ms le_rfl]
  · intro i h1 h2
    simp

/-- Witness for C1 on a five-request batch (crossing a group boundary). -/
theorem c1_batch_order_witness :
    ∃ rs, (evalEndpoint fW (ReqMoves.arr msW)).1 = Except.ok rs ∧
      rs.length = msW.length ∧
      ∀ (i : Nat) (h1 : i < rs.length) (h2 : i < msW.length), rs[i] = fW msW[i] :=
  c1_batch_order fW msW (by decide)

/-- Claim C8: a missing, non-array, or empty `moves` field is rejected
with the invalid-input response, and no acquire happens on that path. -/
theorem c8_invalid_rejected (f : Move → EvaluatedMove) (body : ReqMoves)
    (h : ∀ ms, body = ReqMoves.arr ms → ms = []) :
    evalEndpoint f body = (Except.error "Invalid or empty moves array", 0) := by
  cases body with
  | missing => rfl
  | notArray => rfl
  | arr ms =>
    have hms : ms = [] := h ms rfl
    subst hms
    rfl

/-- Witness for C8 at an empty array and at a missing field. -/
theorem c8_invalid_rejected_witness :
    evalEndpoint fW (ReqMoves.arr []) = (Except.error "Invalid or empty moves array", 0) ∧
    evalEndpoint fW ReqMoves.missing = (Except.error "Invalid or empty moves array", 0) :=
  ⟨c8_invalid_rejected fW (ReqMoves.arr []) (fun ms h => by injection h with h2; exact h2.symm),
   c8_invalid_rejected fW ReqMoves.missing (fun ms h => nomatch h)⟩

/-- Claim C10: the listening port is `parseInt(PORT) | 3000`; an unset or
non-numeric `PORT` gives 3000, while `PORT="8080"` gives 8120 — neither
the configured nor the default port. -/
theorem c10_port_bitor (s : String) (h : jsParseInt s = none) :
    serverPort none = 3000 ∧ serverPort (some s) = 3000 ∧
    serverPort (some "8080") = 8120 ∧ (8120 : Int) ≠ 8080 ∧ (8120 : Int) ≠ 3000 := by
  refine ⟨by decide, ?_, by decide, by decide, by decide⟩
  have hs : serverPort (some s) = jsBitOr (jsParseInt s) 3000 := rfl
  rw [hs, h]
  decide

/-- Witness for C10 at the non-numeric string `abc`. -/
theorem c10_port_bitor_witness :
    serverPort none = 3000 ∧ serverPort (some "abc") = 3000 ∧
    serverPort (some "8080") = 8120 ∧ (8120 : Int) ≠ 8080 ∧ (8120 : Int) ≠ 3000 :=
  c10_port_bitor "abc" (by decide)

/-- Claim C2 fails on the code: the 30-second timer of a completed
evaluation is never cleared, and its stale `cleanup` releases the worker
while a later evaluation's listener is still attached. On `sched2a` the
worker ends up with the listeners of evaluations 2 and 3 attached at
once, and on the continued schedule a single engine reply resolves both
evaluations 2 and 3 (distinct requests) with the same data. -/
theorem c2_cross_talk :
    (runEvents initWorker sched2a).handlers = [2, 3] ∧
    ((runWorker sched2b 31600).resolved.lookup 2).map (fun r => r.bestMove) = some "d2d4" ∧
    ((runWorker sched2b 31600).resolved.lookup 3).map (fun r => r.bestMove) = some "d2d4" ∧
    mv2 ≠ mv3 := by
  refine ⟨by decide, by decide, by decide, by decide⟩

/-- Claim C3 fails on the code: a single request (one acquire) whose
engine answers at time 1000 is released twice — once by the best-move
`cleanup`, once more when the never-cleared timer fires at 30000. -/
theorem c3_double_release :
    (runWorker sched3 40000).releases = [1, 1] ∧
    (runWorker sched3 40000).resolved.length = 1 := by
  refine ⟨by decide, by decide⟩

/-- Claim C4 fails on the code: on the synchronous-create path the
readiness poll inspects only `ready`, so an engine that prints `uciok`
and then exits before the next 10 ms tick is still handed out: `acquire`
returns an instance with `alive = false`, marked busy. -/
theorem c4_dead_handout :
    (cRun [CEv.uciok, CEv.exit, CEv.poll]).returned =
      some { alive := false, ready := true, busy := true } := by
  decide

/-- Claim C7 fails on the code: after a spawn `error` event the new
instance can never become `ready`, and the `checkReady` poll step is a
fixpoint with nothing returned — `acquire()` suspends forever instead of
propagating an `AcquireError`. -/
theorem c7_spawn_failure_counterexample :
    cStep (cRun [CEv.err]) CEv.poll = cRun [CEv.err] ∧
    (cRun [CEv.err]).returned = none := by
  refine ⟨by decide, by decide⟩

/-- Claim C7 amended: on a spawn failure during the synchronous-create
path, `acquire()` neither succeeds nor raises — every further poll tick
leaves the wait state unchanged with nothing returned — while the failed
spawn does not consume pool capacity (the error handler's decrement
returns `currentPoolSize` to its prior value 0). -/
theorem c7_amended_spawn_failure :
    (cRun [CEv.err]).returned = none ∧
    (cRun [CEv.err]).inst.ready = false ∧
    cStep (cRun [CEv.err]) CEv.poll = cRun [CEv.err] ∧
    (cRun [CEv.err]).cur = 0 := by
  refine ⟨by decide, by decide, by decide, by decide⟩

/-- Firing due timers on the pre-timeout shape: nothing due before
30000; at or after 30000 the stale-timer callback runs `cleanup` and
resolves the timeout placeholder. -/
lemma fireDue_preMid (m : Move) (e : String) (t : Nat) :
    fireDue t (preMid m e) = if 30000 ≤ t then postMid m e else preMid m e := by
  by_cases h : 30000 ≤ t
  · simp [fireDue, preMid, postMid, h, cleanupEval, resolveEval, timeoutRes]
  · simp [fireDue, preMid, h]

/-- The post-timeout shape has no pending timers. -/
lemma fireDue_postMid (m : Move) (e : String) (t : Nat) :
    fireDue t (postMid m e) = postMid m e := rfl

/-- The post-timeout shape has no listeners: data chunks are dropped. -/
lemma data_postMid (m : Move) (e : String) (t : Nat) (c : String) :
    applyEvent t (postMid m e) (WEv.data c) = postMid m e := rfl

/-- A best-move-free chunk delivered to the pre-timeout shape only
latches `lastEval`. -/
lemma data_preMid (m : Move) (e : String) (t : Nat) (c : String)
    (hc : strContains c "bestmove" = false) :
    applyEvent t (preMid m e) (WEv.data c) =
      preMid m (if strContains c "score" then jsTrim c else e) := by
  by_cases hs : strContains c "score" = true
  · simp [applyEvent, preMid, deliverTo, procChunk, hc, hs]
  · simp only [Bool.not_eq_true] at hs
    simp [applyEvent, preMid, deliverTo, procChunk, hc, hs]

/-- One best-move-free occurrence keeps the trace in one of the two
shapes. -/
lemma mid_step (m : Move) (st : WSt) (t : Nat) (c : String)
    (hst : (∃ e, st = preMid m e) ∨ (∃ e, st = postMid m e))
    (hc : strContains c "bestmove" = false) :
    (∃ e, applyEvent t (fireDue t st) (WEv.data c) = preMid m e) ∨
    (∃ e, applyEvent t (fireDue t st) (WEv.data c) = postMid m e) := by
  rcases hst with ⟨e, rfl⟩ | ⟨e, rfl⟩
  · rw [fireDue_preMid]
    by_cases h : 30000 ≤ t
    · rw [if_pos h, data_postMid]
      exact .inr ⟨e, rfl⟩
    · rw [if_neg h, data_preMid m e t c hc]
      exact .inl ⟨_, rfl⟩
  · rw [fireDue_postMid, data_postMid]
    exact .inr ⟨e, rfl⟩

/-- A whole best-move-free schedule keeps the trace in one of the two
shapes. -/
lemma mid_run (m : Move) (rest : List (Nat × WEv)) :
    ∀ st, ((∃ e, st = preMid m e) ∨ (∃ e, st = postMid m e)) →
    (∀ p ∈ rest, ∃ c, p.2 = WEv.data c ∧ strContains c "bestmove" = false) →
    (∃ e, runEvents st rest = preMid m e) ∨ (∃ e, runEvents st rest = postMid m e) := by
  induction rest with
  | nil =>
    intro st hst _
    simpa [runEvents] using hst
  | cons p ps ih =>
    intro st hst hr
    obtain ⟨c, hpe, hc⟩ := hr p (by simp)
    obtain ⟨t, ev⟩ := p
    simp only at hpe
    subst hpe
    exact ih _ (mid_step m st t c hst hc) (fun q hq => hr q (by simp [hq]))

/-- Claim C6: a request whose worker never emits a best-move chunk
resolves, once every timer due by the horizon has fired, with the
source's distinguished timeout placeholder (`evaluation: "fucked"`,
empty move) as its only resolution; its listener is detached and the
worker is back to not-busy (released), not left permanently busy. -/
theorem c6_timeout_path (m : Move) (rest : List (Nat × WEv)) (horizon : Nat)
    (hr : ∀ p ∈ rest, ∃ c, p.2 = WEv.data c ∧ strContains c "bestmove" = false)
    (hh : 30000 ≤ horizon) :
    (runWorker ((0, WEv.start 1 m) :: rest) horizon).resolved = [(1, timeoutRes m)] ∧
    (runWorker ((0, WEv.start 1 m) :: rest) horizon).handlers = [] ∧
    (runWorker ((0, WEv.start 1 m) :: rest) horizon).busy = false := by
  have h0 : applyEvent 0 (fireDue 0 initWorker) (WEv.start 1 m) = preMid m "" := rfl
  have hrw : runWorker ((0, WEv.start 1 m) :: rest) horizon =
      fireDue horizon (runEvents (applyEvent 0 (fireDue 0 initWorker) (WEv.start 1 m)) rest) := rfl
  have hrun := mid_run m rest _ (.inl ⟨"", h0⟩) hr
  rcases hrun with ⟨e, he⟩ | ⟨e, he⟩
  · rw [hrw, he, fireDue_preMid, if_pos hh]
    exact ⟨rfl, rfl, rfl⟩
  · rw [hrw, he, fireDue_postMid]
    exact ⟨rfl, rfl, rfl⟩

/-- Witness for C6: one request, one score-only info chunk, horizon at
the timer's due time. -/
theorem c6_timeout_path_witness :
    (runWorker [(0, WEv.start 1 mv1), (5000, WEv.data "info depth 10 score cp 12")] 30000).resolved
        = [(1, timeoutRes mv1)] ∧
    (runWorker [(0, WEv.start 1 mv1), (5000, WEv.data "info depth 10 score cp 12")] 30000).handlers
        = [] ∧
    (runWorker [(0, WEv.start 1 mv1), (5000, WEv.data "info depth 10 score cp 12")] 30000).busy
        = false :=
  c6_timeout_path mv1 [(5000, WEv.data "info depth 10 score cp 12")] 30000
    (by
      intro p hp
      rw [List.mem_singleton] at hp
      subst hp
      exact ⟨"info depth 10 score cp 12", rfl, by decide⟩)
    (by decide)

end NightsWatch
